import Mathlib

/-!
Verification of the ligolo-mp userspace network stack and connection-dispatch
layer (`internal/crl/entity.go`: the `crl` RevokedCertificate entity and the
`netstack` package) against its natural-language specification.

Go code is shallowly embedded: pure functions become Lean functions, pointer
mutation becomes explicit state passing, external calls (the gvisor engine,
the OS) become recorded effects or environment parameters, and the mutex that
serializes the forwarders' and `SetConnPool`'s critical sections is modelled
by treating each critical section as one atomic event of a trace.
-/

namespace LigoloMP

/-! ## RevokedCertificate (`package crl`)

```go
type RevokedCertificate struct {
    Reason      string
    Certificate []byte
    Thumbprint  [sha1.Size]byte
}
func (rc *RevokedCertificate) Hash() string { return fmt.Sprintf("%x", rc.Thumbprint) }
```
Bytes are modelled as natural numbers below 256 (the values `%x` formats). -/

structure RevokedCertificate where
  Reason : String
  Certificate : List Nat
  Thumbprint : List Nat
  deriving Repr, DecidableEq

/-- One byte rendered by Go's `%x` verb: two lowercase hex digits. -/
def hexByte (b : Nat) : String :=
  String.mk [Nat.digitChar (b / 16 % 16), Nat.digitChar (b % 16)]

/-- `fmt.Sprintf("%x", bytes)`: the concatenation of the bytes' hex forms. -/
def hexBytes (bs : List Nat) : String :=
  String.join (bs.map hexByte)

/-- `RevokedCertificate.Hash`: hex rendering of the stored thumbprint. -/
def RevokedCertificate.Hash (rc : RevokedCertificate) : String :=
  hexBytes rc.Thumbprint

/-- Modelled from the spec: the repository code that constructs a
`RevokedCertificate` (filling `Thumbprint` from the certificate's encoded
bytes) is not under `src/`; per the spec the fingerprint is a "deterministic
content hash of the certificate's encoded bytes", so the thumbprint is the
value of a digest function (kept abstract) on the encoded certificate. -/
def mkRevokedCertificate (digest : List Nat → List Nat) (reason : String)
    (cert : List Nat) : RevokedCertificate :=
  { Reason := reason, Certificate := cert, Thumbprint := digest cert }

/-! ## TunConn (`package netstack`)

Transport protocol numbers as exported by the gvisor packages
(`tcp.ProtocolNumber = 6`, `udp.ProtocolNumber = 17`,
`icmp.ProtocolNumber4 = 1`, `icmp.ProtocolNumber6 = 58`). -/

def tcpProtocolNumber : Nat := 6
def udpProtocolNumber : Nat := 17
def icmpProtocolNumber4 : Nat := 1
def icmpProtocolNumber6 : Nat := 58

/-- The external `tcp.ForwarderRequest` reached through `TCPConn.Request`.
Its `Complete` method lives in the external gvisor engine (not in this
repository); the embedding records each invocation of `Complete`, and for each
invocation the `reset` flag it was passed, because every invocation is a
network-affecting operation of the engine (completing the handshake, sending a
reset, or — on a request that was already completed — gvisor's failure mode). -/
structure TCPForwarderRequest where
  completeCalls : Nat
  resetFlags : List Bool
  deriving Repr, DecidableEq

/-- `Request.Complete(reset)`: one more invocation of the engine's completion
operation, recording the reset flag it was asked to use. -/
def TCPForwarderRequest.Complete (r : TCPForwarderRequest) (reset : Bool) :
    TCPForwarderRequest :=
  { completeCalls := r.completeCalls + 1, resetFlags := r.resetFlags ++ [reset] }

/-- `TCPConn`: endpoint identity plus the pending forwarder request. -/
structure TCPConn where
  EndpointID : Nat
  Request : TCPForwarderRequest
  deriving Repr, DecidableEq

/-- `UDPConn`: endpoint identity plus the (opaque) udp forwarder request. -/
structure UDPConn where
  EndpointID : Nat
  Request : Nat
  deriving Repr, DecidableEq

/-- `ICMPConn`: the raw packet buffer (opaque). -/
structure ICMPConn where
  Request : Nat
  deriving Repr, DecidableEq

/-- The dynamic value stored in `TunConn.Handler` (`interface{}` in Go). -/
inductive Handler where
  | tcp (c : TCPConn)
  | udp (c : UDPConn)
  | icmp (c : ICMPConn)
  deriving Repr, DecidableEq

/-- `TunConn`: protocol tag plus dynamically-typed handler. -/
structure TunConn where
  Protocol : Nat
  Handler : Handler
  deriving Repr, DecidableEq

/-- `IsTCP`: the protocol tag equals `tcp.ProtocolNumber`. -/
def TunConn.IsTCP (t : TunConn) : Bool :=
  t.Protocol == tcpProtocolNumber

/-- `IsUDP`: the protocol tag equals `udp.ProtocolNumber`. -/
def TunConn.IsUDP (t : TunConn) : Bool :=
  t.Protocol == udpProtocolNumber

/-- `IsICMP`: the protocol tag equals `icmp.ProtocolNumber4` (IPv4 only). -/
def TunConn.IsICMP (t : TunConn) : Bool :=
  t.Protocol == icmpProtocolNumber4

/-- `GetTCP`: the type assertion `t.Handler.(TCPConn)`; `none` models the
runtime panic when the handler is not a `TCPConn`. -/
def TunConn.GetTCP (t : TunConn) : Option TCPConn :=
  match t.Handler with
  | .tcp c => some c
  | _ => none

/-- `Terminate(reset)`: when the connection is TCP, invoke the request's
`Complete(reset)` (through the `GetTCP` assertion); otherwise do nothing.
The result is the updated connection, `none` modelling the type-assertion
panic of `GetTCP` on a TCP-tagged connection whose handler is not a `TCPConn`. -/
def TunConn.Terminate (t : TunConn) (reset : Bool) : Option TunConn :=
  if t.IsTCP then
    match t.GetTCP with
    | some c =>
        some { t with Handler := .tcp { c with Request := c.Request.Complete reset } }
    | none => none
  else
    some t

/-- Number of times the engine's completion operation has been invoked on a
connection's TCP forwarder request (0 for non-TCP handlers). -/
def TunConn.completeCalls (t : TunConn) : Nat :=
  match t.Handler with
  | .tcp c => c.Request.completeCalls
  | _ => 0

/-- Number of completion invocations that were asked to send a reset. -/
def TunConn.resetCount (t : TunConn) : Nat :=
  match t.Handler with
  | .tcp c => c.Request.resetFlags.count true
  | _ => 0

/-- `Terminate` iterated `n` times (each call on the connection produced by
the previous one), stopping on a panic. -/
def terminateN (reset : Bool) : Nat → TunConn → Option TunConn
  | 0, t => some t
  | n + 1, t => (t.Terminate reset).bind (terminateN reset n)

/-! ## ConnPool and the forwarder critical sections -/

/-- Modelled from the spec: the `ConnPool` implementation is not under `src/`
(only its callers in `NetStack` are). Per spec §4.4 it is a closable FIFO
collection: `Add` fails with `PoolClosed` once the pool is closed and
otherwise appends, `Closed` is a non-blocking state check, `Close` marks the
pool closed. Pending requests are identified by opaque ids. -/
structure ConnPool where
  closed : Bool
  contents : List Nat
  deriving Repr, DecidableEq

/-- `ConnPool.Closed`: non-blocking state check (spec §4.4). -/
def ConnPool.Closed (p : ConnPool) : Bool :=
  p.closed

/-- `ConnPool.Add`: `PoolClosed` failure when closed, FIFO append otherwise
(spec §4.4). -/
def ConnPool.Add (p : ConnPool) (r : Nat) : Except String ConnPool :=
  if p.closed then .error "PoolClosed"
  else .ok { p with contents := p.contents ++ [r] }

/-- `ConnPool.Close`: marks the pool closed (spec §4.4). -/
def ConnPool.Close (p : ConnPool) : ConnPool :=
  { p with closed := true }

/-- Effects a forwarder callback can perform besides mutating the pool. The
vocabulary includes the network-visible operations a handler could have
invoked on the pending request (completing or resetting the handshake,
emitting a reply), so that "no reply is produced" is expressible. -/
inductive HandlerEffect where
  | addedToPool (r : Nat)
  | loggedError
  | completedHandshake (reset : Bool)
  | sentReply
  deriving Repr, DecidableEq

/-- Body of the TCP forwarder callback registered in `NetStack.new`: under the
stack lock, return immediately when no pool is set or the pool is closed;
otherwise `Add` the request, logging (never escalating) an `Add` error.
Input/output is the locked pool reference plus the effects performed. -/
def tcpHandler (pool : Option ConnPool) (r : Nat) :
    Option ConnPool × List HandlerEffect :=
  match pool with
  | none => (none, [])
  | some p =>
      if p.Closed then (some p, [])
      else
        match p.Add r with
        | .ok p' => (some p', [.addedToPool r])
        | .error _ => (some p, [.loggedError])

/-- Body of the UDP forwarder callback registered in `NetStack.new`; its
critical section is identical to the TCP one. -/
def udpHandler (pool : Option ConnPool) (r : Nat) :
    Option ConnPool × List HandlerEffect :=
  match pool with
  | none => (none, [])
  | some p =>
      if p.Closed then (some p, [])
      else
        match p.Add r with
        | .ok p' => (some p', [.addedToPool r])
        | .error _ => (some p, [.loggedError])

/-! ## Lock-serialized dispatch traces

`NetStack.SetConnPool` and both forwarder callbacks touch `s.pool` only
inside `s.Lock()`/`s.Unlock()`, so every interleaving of these operations is
a sequence of whole critical sections. A trace is such a sequence; each event
is one critical section, executed atomically. Pool objects live in a heap of
`(PoolId, ConnPool)` pairs (the id plays the role of the Go pointer, and so
of the pool "generation"); `poolRef` is the `NetStack.pool` field. -/

abbrev PoolId := Nat

/-- The state the stack mutex protects: the active pool reference plus the
heap of pool objects. -/
structure DispatchState where
  poolRef : Option PoolId
  pools : List (PoolId × ConnPool)
  deriving Repr, DecidableEq

/-- Pointer dereference in the pool heap (first entry with the id). -/
def findPool : List (PoolId × ConnPool) → PoolId → Option ConnPool
  | [], _ => none
  | x :: xs, i => if x.1 = i then some x.2 else findPool xs i

/-- In-place mutation of the pool object an id points at. -/
def updatePool : List (PoolId × ConnPool) → PoolId → ConnPool → List (PoolId × ConnPool)
  | [], _, _ => []
  | x :: xs, i, q => if x.1 = i then (i, q) :: xs else x :: updatePool xs i q

/-- One lock-atomic critical section: `replacePool` is `SetConnPool`'s body,
`addFlow` is a forwarder's body (TCP and UDP are identical with respect to
the pool, cf. `tcpHandler`/`udpHandler`), `closePool` is the old pool
owner's `Close` (atomic through the pool's own thread-safety, spec §4.4). -/
inductive Event where
  | replacePool (p : PoolId)
  | addFlow (r : Nat)
  | closePool (p : PoolId)
  deriving Repr, DecidableEq

/-- Execute one critical section; also reports the delivery it performed —
`some (r, p)` meaning request `r` was added to pool (generation) `p`. -/
def step (s : DispatchState) : Event → DispatchState × Option (Nat × PoolId)
  | .replacePool p => ({ s with poolRef := some p }, none)
  | .closePool p =>
      match findPool s.pools p with
      | some q => ({ s with pools := updatePool s.pools p q.Close }, none)
      | none => (s, none)
  | .addFlow r =>
      match s.poolRef with
      | none => (s, none)
      | some i =>
          match findPool s.pools i with
          | none => (s, none)
          | some q =>
              if q.Closed then (s, none)
              else
                match q.Add r with
                | .ok q' => ({ s with pools := updatePool s.pools i q' }, some (r, i))
                | .error _ => (s, none)

/-- Run a trace, collecting the deliveries in order. -/
def run (s : DispatchState) : List Event → DispatchState × List (Nat × PoolId)
  | [] => (s, [])
  | e :: es =>
      let s' := (step s e).1
      ((run s' es).1, (step s e).2.toList ++ (run s' es).2)

/-- The request ids of the trace's `addFlow` events, in order. -/
def addIds : List Event → List Nat
  | [] => []
  | .addFlow r :: es => r :: addIds es
  | _ :: es => addIds es

/-- Total number of occurrences of a request id across a pool heap. -/
def countAll (ps : List (PoolId × ConnPool)) (r : Nat) : Nat :=
  (ps.map fun x => x.2.contents.count r).sum

/-- Total number of occurrences of a request id across the state's pools. -/
def DispatchState.countReq (s : DispatchState) (r : Nat) : Nat :=
  countAll s.pools r

/-! ## NetStack construction (`NewStack` / `NetStack.new`)

The gvisor engine is external; the embedding records the configuration the
construction code applies to it. External calls that can fail (`tun.Open`,
`CreateNIC`, `icmpResponder`) take their outcomes from an environment. -/

/-- Route destinations used by `NetStack.new`: the accept-all (empty) subnets. -/
inductive RouteDest where
  | ipv4EmptySubnet
  | ipv6EmptySubnet
  deriving Repr, DecidableEq

/-- Observable configuration of the gvisor engine (`stack.Stack`):
ICMP rate limit and burst, created NICs, route table, per-family forwarding,
TCP SACK and SYN-cookie options, per-NIC promiscuous and spoofing settings. -/
structure EngineConfig where
  icmpLimit : Nat
  icmpBurst : Nat
  nics : List Nat
  routes : List (RouteDest × Nat)
  forwardingIPv4 : Bool
  forwardingIPv6 : Bool
  sackEnabled : Bool
  alwaysUseSynCookies : Bool
  promiscuous : List (Nat × Bool)
  spoofing : List (Nat × Bool)
  deriving Repr, DecidableEq

/-- The engine's initial option values after `stack.New` (unknown to this
code, hence arbitrary in the environment). -/
structure EngineDefaults where
  icmpLimit : Nat
  icmpBurst : Nat
  forwardingIPv4 : Bool
  forwardingIPv6 : Bool
  sackEnabled : Bool
  alwaysUseSynCookies : Bool
  deriving Repr, DecidableEq

/-- `stack.New`: a fresh engine with no NICs, no routes, and the engine's
default option values. -/
def stackNew (d : EngineDefaults) : EngineConfig :=
  { icmpLimit := d.icmpLimit, icmpBurst := d.icmpBurst, nics := [], routes := [],
    forwardingIPv4 := d.forwardingIPv4, forwardingIPv6 := d.forwardingIPv6,
    sackEnabled := d.sackEnabled, alwaysUseSynCookies := d.alwaysUseSynCookies,
    promiscuous := [], spoofing := [] }

deriving instance DecidableEq for Except

/-- Outcomes of the external calls made during construction: `tun.Open`
(descriptor on success), `CreateNIC` and `icmpResponder` (`none` = success). -/
structure ConstructEnv where
  defaults : EngineDefaults
  tunOpen : Except String Nat
  nicErr : Option String
  responderErr : Option String
  deriving Repr, DecidableEq

/-- The `NetStack` struct: pool reference, engine pointer, close channel,
interface descriptor. Go zero values before assignment: `stack` nil,
`closeChan` nil (`false` here), `fd` `0`. -/
structure NetStack where
  pool : Option ConnPool
  stack : Option EngineConfig
  closeChan : Bool
  fd : Nat
  deriving Repr, DecidableEq

/-- Result of `NetStack.new`: the struct's fields on return, an OS-level
ledger of whether the tun descriptor is open and whether the EchoResponder
runs, and the returned `(engine, error)` pair. -/
structure NewOutcome where
  ns : NetStack
  fdOpen : Bool
  responderRunning : Bool
  result : Except String EngineConfig
  deriving Repr, DecidableEq

/-- `NetStack.new`: create the engine, set the ICMP limit and burst to zero,
register the forwarders, open the tun interface, create NIC 1, start the
EchoResponder, then apply the route table, forwarding, SACK, SYN-cookie,
promiscuous and spoofing settings. Each `return nil, err` in the source
returns here with the fields assigned so far and the OS ledger as the code
leaves it (in particular: no error path closes the descriptor). -/
def NetStack.new (env : ConstructEnv) (s : NetStack) : NewOutcome :=
  let cfg0 := stackNew env.defaults
  let cfg1 := { cfg0 with icmpLimit := 0, icmpBurst := 0 }
  match env.tunOpen with
  | .error e =>
      { ns := { s with stack := some cfg1 }, fdOpen := false,
        responderRunning := false, result := .error e }
  | .ok fd =>
      let s1 := { s with stack := some cfg1, fd := fd }
      match env.nicErr with
      | some e =>
          { ns := s1, fdOpen := true, responderRunning := false,
            result := .error e }
      | none =>
          let cfg2 := { cfg1 with nics := [1] }
          match env.responderErr with
          | some e =>
              { ns := { s1 with stack := some cfg2 }, fdOpen := true,
                responderRunning := false, result := .error e }
          | none =>
              let s2 := { s1 with closeChan := true }
              let cfg3 := { cfg2 with
                routes := [(.ipv4EmptySubnet, 1), (.ipv6EmptySubnet, 1)],
                forwardingIPv4 := false, forwardingIPv6 := false,
                sackEnabled := false, alwaysUseSynCookies := false,
                promiscuous := [(1, true)], spoofing := [(1, true)] }
              { ns := { s2 with stack := some cfg3 }, fdOpen := true,
                responderRunning := true, result := .ok cfg3 }

/-- `NewStack`: builds `ns := NetStack{pool: connPool}`, calls `ns.new`, and
returns `&ns` (always a non-nil handle) together with the error. -/
def NewStack (env : ConstructEnv) (connPool : Option ConnPool) : NewOutcome :=
  NetStack.new env { pool := connPool, stack := none, closeChan := false, fd := 0 }

/-- The fixed startup policy of the spec: accept-all IPv4/IPv6 routes bound
to NIC 1, promiscuous and spoofing enabled on that NIC, forwarding disabled
for both families, SACK disabled, SYN-cookies disabled, ICMP rate limiting
disabled (limit and burst zero). -/
def fixedStartupPolicy : EngineConfig :=
  { icmpLimit := 0, icmpBurst := 0, nics := [1],
    routes := [(.ipv4EmptySubnet, 1), (.ipv6EmptySubnet, 1)],
    forwardingIPv4 := false, forwardingIPv6 := false,
    sackEnabled := false, alwaysUseSynCookies := false,
    promiscuous := [(1, true)], spoofing := [(1, true)] }

/-! ## Teardown (`NetStack.Destroy`) -/

/-- Runtime resources `Destroy` acts on. -/
structure TeardownState where
  responderRunning : Bool
  fdOpen : Bool
  engineAlive : Bool
  deriving Repr, DecidableEq

/-- The teardown operations, in the order they complete. -/
inductive TeardownAction where
  | signalStop
  | closeFd
  | releaseEngine
  deriving Repr, DecidableEq

/-- Result of a `Destroy` call: normal return, error return, or blocked
forever (with the actions that completed before blocking). -/
inductive DestroyResult where
  | ok (s : TeardownState) (actions : List TeardownAction)
  | errored (e : String) (s : TeardownState) (actions : List TeardownAction)
  | blocked (actions : List TeardownAction)
  deriving Repr, DecidableEq

/-- `Destroy`: `s.closeChan <- true`, then `unix.Close(s.fd)` returning its
error if any, then `s.stack.Destroy()`. The send on the unbuffered
`closeChan` completes only while the EchoResponder is still receiving;
modelled from the spec for the responder's side (its code is not under
`src/`): the responder receives the single-use stop signal and stops, and
once stopped there is no receiver, so a further send blocks forever.
`closeOk` is the OS outcome of `unix.Close`. -/
def Destroy (closeOk : Bool) (s : TeardownState) : DestroyResult :=
  if s.responderRunning then
    let s1 := { s with responderRunning := false }
    if closeOk then
      .ok { s1 with fdOpen := false, engineAlive := false }
        [.signalStop, .closeFd, .releaseEngine]
    else
      .errored "close failed" { s1 with fdOpen := false }
        [.signalStop, .closeFd]
  else
    .blocked []

end LigoloMP

namespace LigoloMP

/-! ## Theorems about `RevokedCertificate` and `TunConn` -/

/-- **C8**. The revoked-certificate fingerprint is a deterministic content
hash of the certificate's encoded bytes: `Hash` is the hex rendering of the
digest of the encoded certificate (a pure function, so every call returns the
same value), and two records built over equal encoded certificate bytes have
equal fingerprints. -/
theorem C8_fingerprint_content_hash (digest : List Nat → List Nat)
    (r₁ r₂ : String) (c₁ c₂ : List Nat) (hc : c₁ = c₂) :
    (mkRevokedCertificate digest r₁ c₁).Hash = hexBytes (digest c₁) ∧
    (mkRevokedCertificate digest r₁ c₁).Hash = (mkRevokedCertificate digest r₂ c₂).Hash := by
  subst hc
  exact ⟨rfl, rfl⟩

/-- Witness for C8 at a concrete digest and concrete records. -/
theorem C8_fingerprint_content_hash_witness :
    (mkRevokedCertificate (fun bs => bs.map (fun b => (b + 1) % 256)) "expired"
      [0, 255]).Hash = hexBytes [1, 0] ∧
    (mkRevokedCertificate (fun bs => bs.map (fun b => (b + 1) % 256)) "expired"
      [0, 255]).Hash =
    (mkRevokedCertificate (fun bs => bs.map (fun b => (b + 1) % 256)) "revoked"
      [0, 255]).Hash :=
  C8_fingerprint_content_hash (fun bs => bs.map (fun b => (b + 1) % 256))
    "expired" "revoked" [0, 255] [0, 255] rfl

/-- **C9**. For every `TunConn` whose kind is UDP or ICMP (hence not TCP),
`Terminate(reset)` is a no-op for either value of `reset`: it returns the
connection unchanged — no handshake completion, no reset, no panic. -/
theorem C9_terminate_noop_non_tcp (t : TunConn) (reset : Bool)
    (h : t.IsUDP = true ∨ t.IsICMP = true) :
    t.Terminate reset = some t := by
  have hne : t.Protocol ≠ tcpProtocolNumber := by
    rcases h with h | h
    · have : t.Protocol = udpProtocolNumber := by
        simpa [TunConn.IsUDP] using h
      simp [this, udpProtocolNumber, tcpProtocolNumber]
    · have : t.Protocol = icmpProtocolNumber4 := by
        simpa [TunConn.IsICMP] using h
      simp [this, icmpProtocolNumber4, tcpProtocolNumber]
  simp [TunConn.Terminate, TunConn.IsTCP, hne]

/-- Witness for C9: a concrete UDP connection and a concrete ICMP connection
are both left untouched by `Terminate`, for both reset values. -/
theorem C9_terminate_noop_non_tcp_witness :
    (TunConn.mk udpProtocolNumber (.udp ⟨0, 0⟩)).Terminate true =
      some (TunConn.mk udpProtocolNumber (.udp ⟨0, 0⟩)) ∧
    (TunConn.mk icmpProtocolNumber4 (.icmp ⟨7⟩)).Terminate false =
      some (TunConn.mk icmpProtocolNumber4 (.icmp ⟨7⟩)) :=
  ⟨C9_terminate_noop_non_tcp _ true (Or.inl (by decide)),
   C9_terminate_noop_non_tcp _ false (Or.inr (by decide))⟩

/-- **C3 counterexample**. The claim says a second `Terminate` on the same TCP
request triggers no second network I/O, and `Terminate(request, true)` sends
exactly one reset however often it is invoked. On a fresh TCP request, two
`Terminate(·, true)` calls invoke the engine's `Complete` operation twice and
request a reset twice — the second call re-triggers the network-affecting
operation, so the claim as stated is false. -/
theorem C3_counterexample :
    (terminateN true 2 (TunConn.mk tcpProtocolNumber (.tcp ⟨0, ⟨0, []⟩⟩))).map
        TunConn.completeCalls = some 2 ∧
    (terminateN true 2 (TunConn.mk tcpProtocolNumber (.tcp ⟨0, ⟨0, []⟩⟩))).map
        TunConn.resetCount = some 2 ∧
    ¬ (terminateN true 2 (TunConn.mk tcpProtocolNumber (.tcp ⟨0, ⟨0, []⟩⟩))).map
        TunConn.resetCount = some 1 := by
  decide

/-- **C3 (amended)**. `Terminate` contains no idempotence guard: for a TCP
connection every call delegates to the external `Request.Complete` once more,
so after `n` calls the completion operation has been invoked exactly `n` more
times, and with `reset = true` exactly `n` resets have been requested (in
particular a single `Terminate(request, true)` requests exactly one reset);
idempotence could only come from the external engine, not from `Terminate`. -/
theorem C3_terminate_delegates_each_call (c : TCPConn) (reset : Bool) (n : Nat) :
    (terminateN reset n (TunConn.mk tcpProtocolNumber (.tcp c))).map
        TunConn.completeCalls = some (c.Request.completeCalls + n) ∧
    (terminateN reset n (TunConn.mk tcpProtocolNumber (.tcp c))).map
        TunConn.resetCount =
      some (c.Request.resetFlags.count true + (if reset then n else 0)) := by
  induction n generalizing c with
  | zero => simp [terminateN, TunConn.completeCalls, TunConn.resetCount]
  | succ n ih =>
      have h := ih ⟨c.EndpointID, c.Request.Complete reset⟩
      simp only [terminateN, TunConn.Terminate, TunConn.IsTCP, TunConn.GetTCP,
        beq_self_eq_true, if_true, Option.some_bind] at h ⊢
      refine ⟨?_, ?_⟩
      · rw [h.1]
        simp [TCPForwarderRequest.Complete]
        omega
      · rw [h.2]
        rcases reset with _ | _
        · simp [TCPForwarderRequest.Complete, List.count_append]
        · simp [TCPForwarderRequest.Complete, List.count_append]
          omega

/-- **C10**. The kind predicates `IsTCP`, `IsUDP`, `IsICMP` are mutually
exclusive (they compare the protocol tag against the three distinct numbers
6, 17, 1), and `IsICMP` recognises only the ICMPv4 number: a `TunConn`
carrying the ICMPv6 protocol number (58) satisfies none of the three. -/
theorem C10_kind_predicates (t : TunConn) :
    (¬(t.IsTCP = true ∧ t.IsUDP = true) ∧
     ¬(t.IsTCP = true ∧ t.IsICMP = true) ∧
     ¬(t.IsUDP = true ∧ t.IsICMP = true)) ∧
    (t.Protocol = icmpProtocolNumber6 →
      t.IsTCP = false ∧ t.IsUDP = false ∧ t.IsICMP = false) := by
  constructor
  · refine ⟨fun ⟨h1, h2⟩ => ?_, fun ⟨h1, h2⟩ => ?_, fun ⟨h1, h2⟩ => ?_⟩ <;>
    · simp only [TunConn.IsTCP, TunConn.IsUDP, TunConn.IsICMP, beq_iff_eq] at h1 h2
      rw [h1] at h2
      simp [tcpProtocolNumber, udpProtocolNumber, icmpProtocolNumber4] at h2
  · intro h
    simp [TunConn.IsTCP, TunConn.IsUDP, TunConn.IsICMP, h,
      tcpProtocolNumber, udpProtocolNumber, icmpProtocolNumber4, icmpProtocolNumber6]

/-- Witness for C10 at a concrete ICMPv6-tagged connection. -/
theorem C10_kind_predicates_witness :
    (¬((TunConn.mk icmpProtocolNumber6 (.icmp ⟨0⟩)).IsTCP = true ∧
       (TunConn.mk icmpProtocolNumber6 (.icmp ⟨0⟩)).IsUDP = true) ∧
     ¬((TunConn.mk icmpProtocolNumber6 (.icmp ⟨0⟩)).IsTCP = true ∧
       (TunConn.mk icmpProtocolNumber6 (.icmp ⟨0⟩)).IsICMP = true) ∧
     ¬((TunConn.mk icmpProtocolNumber6 (.icmp ⟨0⟩)).IsUDP = true ∧
       (TunConn.mk icmpProtocolNumber6 (.icmp ⟨0⟩)).IsICMP = true)) ∧
    ((TunConn.mk icmpProtocolNumber6 (.icmp ⟨0⟩)).IsTCP = false ∧
     (TunConn.mk icmpProtocolNumber6 (.icmp ⟨0⟩)).IsUDP = false ∧
     (TunConn.mk icmpProtocolNumber6 (.icmp ⟨0⟩)).IsICMP = false) :=
  ⟨(C10_kind_predicates (TunConn.mk icmpProtocolNumber6 (.icmp ⟨0⟩))).1,
   (C10_kind_predicates (TunConn.mk icmpProtocolNumber6 (.icmp ⟨0⟩))).2 rfl⟩

end LigoloMP

namespace LigoloMP

/-! ## Forwarder drop behaviour -/

/-- **C4**. For every new TCP or UDP flow event, if the stack has no active
pool (`nil` reference) or the active pool is closed, the forwarder drops the
request: it performs no effect at all — no `Add`, no handshake completion or
reset, no reply to the remote network — and the pool reference and the pool's
closed state and contents are unchanged. -/
theorem C4_drop_when_pool_unset_or_closed (pool : Option ConnPool) (r : Nat)
    (h : pool = none ∨ ∃ p, pool = some p ∧ p.Closed = true) :
    tcpHandler pool r = (pool, []) ∧ udpHandler pool r = (pool, []) := by
  rcases h with h | ⟨p, rfl, hp⟩
  · subst h
    exact ⟨rfl, rfl⟩
  · constructor <;> simp [tcpHandler, udpHandler, hp]

/-- Witness for C4 at a closed pool holding one pending request. -/
theorem C4_drop_when_pool_unset_or_closed_witness :
    tcpHandler (some ⟨true, [5]⟩) 9 = (some ⟨true, [5]⟩, []) ∧
    udpHandler (some ⟨true, [5]⟩) 9 = (some ⟨true, [5]⟩, []) :=
  C4_drop_when_pool_unset_or_closed (some ⟨true, [5]⟩) 9
    (Or.inr ⟨⟨true, [5]⟩, rfl, rfl⟩)

/-! ## Lemmas about the dispatch trace semantics -/

theorem findPool_updatePool_self (ps : List (PoolId × ConnPool)) (i : PoolId)
    (q q' : ConnPool) (h : findPool ps i = some q) :
    findPool (updatePool ps i q') i = some q' := by
  induction ps with
  | nil => simp [findPool] at h
  | cons x xs ih =>
      by_cases hx : x.1 = i
      · simp [findPool, updatePool, hx]
      · simp only [findPool, updatePool, if_neg hx] at h ⊢
        exact ih h

theorem findPool_updatePool_ne (ps : List (PoolId × ConnPool)) (i j : PoolId)
    (q' : ConnPool) (h : j ≠ i) :
    findPool (updatePool ps i q') j = findPool ps j := by
  induction ps with
  | nil => simp [updatePool]
  | cons x xs ih =>
      by_cases hx : x.1 = i
      · simp [findPool, updatePool, hx, Ne.symm h]
      · simp only [updatePool, if_neg hx, findPool]
        by_cases hj : x.1 = j
        · simp [hj]
        · simp only [if_neg hj]
          exact ih

theorem countAll_updatePool (ps : List (PoolId × ConnPool)) (i : PoolId)
    (q q' : ConnPool) (r : Nat) (h : findPool ps i = some q) :
    countAll (updatePool ps i q') r + q.contents.count r
      = countAll ps r + q'.contents.count r := by
  induction ps with
  | nil => simp [findPool] at h
  | cons x xs ih =>
      by_cases hx : x.1 = i
      · simp only [findPool, if_pos hx, Option.some.injEq] at h
        subst h
        simp only [updatePool, if_pos hx, countAll, List.map_cons, List.sum_cons]
        omega
      · simp only [findPool, if_neg hx] at h
        simp only [updatePool, if_neg hx, countAll, List.map_cons, List.sum_cons]
        have := ih h
        simp only [countAll] at this
        omega

end LigoloMP

namespace LigoloMP

theorem step_nonadd_none (s : DispatchState) (e : Event)
    (h : ∀ r : Nat, e ≠ .addFlow r) : (step s e).2 = none := by
  cases e with
  | replacePool p => rfl
  | addFlow r => exact absurd rfl (h r)
  | closePool p =>
      rcases hf : findPool s.pools p with _ | q <;> simp [step, hf]

theorem step_add_id (s : DispatchState) (r r' : Nat) (p : PoolId)
    (h : (step s (.addFlow r)).2 = some (r', p)) : r' = r := by
  rcases href : s.poolRef with _ | i
  · simp [step, href] at h
  · rcases hf : findPool s.pools i with _ | q
    · simp [step, href, hf] at h
    · by_cases hc : q.Closed
      · simp [step, href, hf, hc] at h
      · rcases ha : q.Add r with e' | q'
        · simp [step, href, hf, hc, ha] at h
        · simp [step, href, hf, hc, ha] at h
          exact h.1.symm

theorem step_delivery (s : DispatchState) (e : Event) (r : Nat) (p : PoolId)
    (h : (step s e).2 = some (r, p)) :
    s.poolRef = some p ∧ ∃ q, findPool s.pools p = some q ∧ q.Closed = false := by
  cases e with
  | replacePool p' => simp [step] at h
  | closePool p' =>
      rcases hf : findPool s.pools p' with _ | q <;> simp [step, hf] at h
  | addFlow r' =>
      rcases href : s.poolRef with _ | i
      · simp [step, href] at h
      · rcases hf : findPool s.pools i with _ | q
        · simp [step, href, hf] at h
        · by_cases hc : q.Closed
          · simp [step, href, hf, hc] at h
          · rcases ha : q.Add r' with e' | q'
            · simp [step, href, hf, hc, ha] at h
            · simp [step, href, hf, hc, ha] at h
              obtain ⟨rfl, rfl⟩ := h
              refine ⟨rfl, q, hf, ?_⟩
              simpa using hc

theorem step_delivery_mem (s : DispatchState) (e : Event) (r : Nat) (p : PoolId)
    (h : (step s e).2 = some (r, p)) :
    ∃ q', findPool (step s e).1.pools p = some q' ∧ r ∈ q'.contents := by
  cases e with
  | replacePool p' => simp [step] at h
  | closePool p' =>
      rcases hf : findPool s.pools p' with _ | q <;> simp [step, hf] at h
  | addFlow r' =>
      rcases href : s.poolRef with _ | i
      · simp [step, href] at h
      · rcases hf : findPool s.pools i with _ | q
        · simp [step, href, hf] at h
        · by_cases hc : q.Closed
          · simp [step, href, hf, hc] at h
          · rcases ha : q.Add r' with e' | q'
            · simp [step, href, hf, hc, ha] at h
            · have hcl : q.closed = false := by simpa [ConnPool.Closed] using hc
              simp [step, href, hf, hc, ha] at h ⊢
              obtain ⟨rfl, rfl⟩ := h
              refine ⟨q', findPool_updatePool_self s.pools _ q q' hf, ?_⟩
              simp [ConnPool.Add, hcl] at ha
              rw [← ha]
              simp

end LigoloMP

namespace LigoloMP

theorem step_count_delivered (s : DispatchState) (e : Event) (r : Nat) (p : PoolId)
    (h : (step s e).2 = some (r, p)) :
    (step s e).1.countReq r = s.countReq r + 1 := by
  cases e with
  | replacePool p' => simp [step] at h
  | closePool p' =>
      rcases hf : findPool s.pools p' with _ | q <;> simp [step, hf] at h
  | addFlow r' =>
      rcases href : s.poolRef with _ | i
      · simp [step, href] at h
      · rcases hf : findPool s.pools i with _ | q
        · simp [step, href, hf] at h
        · by_cases hc : q.Closed
          · simp [step, href, hf, hc] at h
          · have hcl : q.closed = false := by simpa [ConnPool.Closed] using hc
            simp [step, href, hf, hc, ConnPool.Add, hcl] at h ⊢
            rw [h.1]
            have hcount := countAll_updatePool s.pools i q
              ⟨false, q.contents ++ [r]⟩ r hf
            simp only [DispatchState.countReq]
            simp [List.count_append] at hcount
            omega

theorem step_count_not_delivered (s : DispatchState) (e : Event) (r : Nat)
    (h : ∀ p', (step s e).2 ≠ some (r, p')) :
    (step s e).1.countReq r = s.countReq r := by
  cases e with
  | replacePool p' => simp [step, DispatchState.countReq]
  | closePool p' =>
      rcases hf : findPool s.pools p' with _ | q
      · simp [step, hf]
      · have hcount := countAll_updatePool s.pools p' q q.Close r hf
        have hcc : q.Close.contents = q.contents := rfl
        rw [hcc] at hcount
        simp only [step, hf, DispatchState.countReq]
        omega
  | addFlow r' =>
      rcases href : s.poolRef with _ | i
      · simp [step, href]
      · rcases hf : findPool s.pools i with _ | q
        · simp [step, href, hf]
        · by_cases hc : q.Closed
          · simp [step, href, hf, hc]
          · have hcl : q.closed = false := by simpa [ConnPool.Closed] using hc
            have hne : r' ≠ r := by
              intro hrr
              exact h i (by simp [step, href, hf, hc, ConnPool.Add, hcl, hrr])
            have hcount := countAll_updatePool s.pools i q
              ⟨false, q.contents ++ [r']⟩ r hf
            have h0 : (q.contents ++ [r']).count r = q.contents.count r := by
              simp [List.count_append, List.count_singleton', hne]
            simp only at hcount
            rw [h0] at hcount
            simp [step, href, hf, hc, ConnPool.Add, hcl, DispatchState.countReq]
            omega

theorem step_mem_mono (s : DispatchState) (e : Event) (r : Nat) (p : PoolId)
    (h : ∃ q, findPool s.pools p = some q ∧ r ∈ q.contents) :
    ∃ q', findPool (step s e).1.pools p = some q' ∧ r ∈ q'.contents := by
  obtain ⟨q0, hq0, hmem⟩ := h
  cases e with
  | replacePool p' => exact ⟨q0, by simpa [step] using hq0, hmem⟩
  | closePool p' =>
      rcases hf : findPool s.pools p' with _ | q
      · exact ⟨q0, by simpa [step, hf] using hq0, hmem⟩
      · by_cases hp : p = p'
        · subst hp
          rw [hf] at hq0
          obtain rfl : q = q0 := by injection hq0
          refine ⟨q.Close, ?_, ?_⟩
          · simp only [step, hf]
            exact findPool_updatePool_self s.pools p q q.Close hf
          · simpa [ConnPool.Close] using hmem
        · refine ⟨q0, ?_, hmem⟩
          simp only [step, hf]
          rw [findPool_updatePool_ne s.pools p' p q.Close hp]
          exact hq0
  | addFlow r' =>
      rcases href : s.poolRef with _ | i
      · exact ⟨q0, by simpa [step, href] using hq0, hmem⟩
      · rcases hf : findPool s.pools i with _ | q
        · exact ⟨q0, by simpa [step, href, hf] using hq0, hmem⟩
        · by_cases hc : q.Closed
          · exact ⟨q0, by simpa [step, href, hf, hc] using hq0, hmem⟩
          · have hcl : q.closed = false := by simpa [ConnPool.Closed] using hc
            by_cases hp : p = i
            · subst hp
              rw [hf] at hq0
              obtain rfl : q = q0 := by injection hq0
              refine ⟨{ q with contents := q.contents ++ [r'] }, ?_, ?_⟩
              · simp only [step, href, hf, hc, ConnPool.Add, hcl,
                  Bool.false_eq_true, if_false]
                exact findPool_updatePool_self s.pools p q _ hf
              · simpa using Or.inl hmem
            · refine ⟨q0, ?_, hmem⟩
              simp only [step, href, hf, hc, ConnPool.Add, hcl,
                Bool.false_eq_true, if_false]
              rw [findPool_updatePool_ne s.pools i p _ hp]
              exact hq0

end LigoloMP

namespace LigoloMP

theorem mem_addIds_cons (e : Event) (es : List Event) (r : Nat)
    (h : r ∈ addIds es) : r ∈ addIds (e :: es) := by
  cases e <;> simp [addIds] <;> tauto

theorem run_deliveries_sublist (evs : List Event) : ∀ s : DispatchState,
    ((run s evs).2.map Prod.fst).Sublist (addIds evs) := by
  induction evs with
  | nil =>
      intro s
      simp [run, addIds]
  | cons e es ih =>
      intro s
      cases e with
      | replacePool p =>
          have hd := step_nonadd_none s (.replacePool p) (by intro r h; cases h)
          simp only [run, addIds, hd, Option.toList_none, List.nil_append]
          exact ih _
      | closePool p =>
          have hd := step_nonadd_none s (.closePool p) (by intro r h; cases h)
          simp only [run, addIds, hd, Option.toList_none, List.nil_append]
          exact ih _
      | addFlow r =>
          rcases hd : (step s (.addFlow r)).2 with _ | rp
          · simp only [run, addIds, hd, Option.toList_none, List.nil_append]
            exact (ih _).cons r
          · have hid : rp.1 = r := step_add_id s r rp.1 rp.2 (by rw [hd])
            simp only [run, addIds, hd, Option.toList_some, List.singleton_append,
              List.map_cons, hid]
            exact (ih _).cons₂ r

theorem run_count_not_delivered (evs : List Event) : ∀ (s : DispatchState) (r : Nat),
    r ∉ addIds evs → (run s evs).1.countReq r = s.countReq r := by
  induction evs with
  | nil =>
      intro s r _
      simp [run]
  | cons e es ih =>
      intro s r hr
      have hres : r ∉ addIds es := fun hmem => hr (mem_addIds_cons e es r hmem)
      have hstep : (step s e).1.countReq r = s.countReq r := by
        apply step_count_not_delivered
        intro p' hp'
        cases e with
        | replacePool p => simp [step] at hp'
        | closePool p =>
            rw [step_nonadd_none s (.closePool p) (by intro r h; cases h)] at hp'
            cases hp'
        | addFlow r'' =>
            have hid : r = r'' := step_add_id s r'' r p' hp'
            subst hid
            exact hr (by simp [addIds])
      simp only [run]
      rw [ih _ r hres, hstep]

theorem run_mem_mono (evs : List Event) : ∀ (s : DispatchState) (r : Nat) (p : PoolId),
    (∃ q, findPool s.pools p = some q ∧ r ∈ q.contents) →
    ∃ q', findPool (run s evs).1.pools p = some q' ∧ r ∈ q'.contents := by
  induction evs with
  | nil =>
      intro s r p h
      simpa [run] using h
  | cons e es ih =>
      intro s r p h
      simp only [run]
      exact ih _ r p (step_mem_mono s e r p h)

end LigoloMP

namespace LigoloMP

theorem dispatch_run_sound (evs : List Event) : ∀ s₀ : DispatchState,
    (∀ r ∈ addIds evs, s₀.countReq r = 0) →
    (addIds evs).Nodup →
    ((run s₀ evs).2.map Prod.fst).Nodup ∧
    ∀ rp ∈ (run s₀ evs).2,
      (run s₀ evs).1.countReq rp.1 = 1 ∧
      ∃ q, findPool (run s₀ evs).1.pools rp.2 = some q ∧ rp.1 ∈ q.contents := by
  induction evs with
  | nil =>
      intro s₀ _ _
      simp [run]
  | cons e es ih =>
      intro s₀ hfresh hnodup
      cases e with
      | replacePool p =>
          have hd := step_nonadd_none s₀ (.replacePool p) (by intro r h; cases h)
          have hfresh' : ∀ r ∈ addIds es, (step s₀ (Event.replacePool p)).1.countReq r = 0 := by
            intro r hr
            rw [step_count_not_delivered s₀ _ r (by rw [hd]; intro p' h; cases h)]
            exact hfresh r (mem_addIds_cons _ es r hr)
          have hnodup' : (addIds es).Nodup := by simpa [addIds] using hnodup
          obtain ⟨h1, h2⟩ := ih _ hfresh' hnodup'
          simp only [run, hd, Option.toList_none, List.nil_append]
          exact ⟨h1, h2⟩
      | closePool p =>
          have hd := step_nonadd_none s₀ (.closePool p) (by intro r h; cases h)
          have hfresh' : ∀ r ∈ addIds es, (step s₀ (Event.closePool p)).1.countReq r = 0 := by
            intro r hr
            rw [step_count_not_delivered s₀ _ r (by rw [hd]; intro p' h; cases h)]
            exact hfresh r (mem_addIds_cons _ es r hr)
          have hnodup' : (addIds es).Nodup := by simpa [addIds] using hnodup
          obtain ⟨h1, h2⟩ := ih _ hfresh' hnodup'
          simp only [run, hd, Option.toList_none, List.nil_append]
          exact ⟨h1, h2⟩
      | addFlow r₀ =>
          have hr0 : r₀ ∉ addIds es := by
            have := hnodup
            simp [addIds, List.nodup_cons] at this
            exact this.1
          have hnodup' : (addIds es).Nodup := by
            have := hnodup
            simp [addIds, List.nodup_cons] at this
            exact this.2
          have hf0 : s₀.countReq r₀ = 0 := hfresh r₀ (by simp [addIds])
          rcases hd : (step s₀ (.addFlow r₀)).2 with _ | rp
          · have hfresh' : ∀ r ∈ addIds es, (step s₀ (Event.addFlow r₀)).1.countReq r = 0 := by
              intro r hr
              rw [step_count_not_delivered s₀ _ r (by rw [hd]; intro p' h; cases h)]
              exact hfresh r (mem_addIds_cons _ es r hr)
            obtain ⟨h1, h2⟩ := ih _ hfresh' hnodup'
            simp only [run, hd, Option.toList_none, List.nil_append]
            exact ⟨h1, h2⟩
          · obtain ⟨r₁, p₀⟩ := rp
            have hr₁ : r₁ = r₀ := step_add_id s₀ r₀ r₁ p₀ hd
            subst hr₁
            have hfresh' : ∀ r ∈ addIds es, (step s₀ (Event.addFlow r₁)).1.countReq r = 0 := by
              intro r hr
              have hrne : r ≠ r₁ := fun hrr => hr0 (hrr ▸ hr)
              rw [step_count_not_delivered s₀ _ r ?_]
              · exact hfresh r (mem_addIds_cons _ es r hr)
              · rw [hd]
                intro p' h
                injection h with h'
                injection h' with h1 h2
                exact hrne h1.symm
            obtain ⟨h1, h2⟩ := ih _ hfresh' hnodup'
            have hsub := run_deliveries_sublist es (step s₀ (.addFlow r₁)).1
            have hr0' : r₁ ∉ ((run (step s₀ (.addFlow r₁)).1 es).2.map Prod.fst) :=
              fun hmem => hr0 (hsub.subset hmem)
            constructor
            · simp only [run, hd, Option.toList_some, List.singleton_append, List.map_cons]
              exact List.nodup_cons.mpr ⟨hr0', h1⟩
            · intro rp' hrp'
              simp only [run, hd, Option.toList_some, List.singleton_append] at hrp' ⊢
              rcases List.mem_cons.mp hrp' with hrp' | hrp'
              · subst hrp'
                constructor
                · rw [run_count_not_delivered es _ r₁ hr0,
                    step_count_delivered s₀ _ r₁ p₀ hd, hf0]
                · exact run_mem_mono es _ r₁ p₀
                    (step_delivery_mem s₀ _ r₁ p₀ hd)
              · exact h2 rp' hrp'

end LigoloMP

namespace LigoloMP

/-- **C2**. Under concurrent Add-from-forwarder and `SetConnPool` calls —
modelled as an arbitrary interleaving (trace) of the lock-atomic critical
sections — the pool swap is atomic from every forwarder's perspective:
(1) every delivery a critical section performs goes to the pool reference
installed at the moment that forwarder held the stack lock, and that pool is
open — no request is delivered to a superseded reference; (2) no request is
delivered twice; (3) every successfully added request ends up in the contents
of exactly one pool generation, namely the one recorded for its delivery —
none is lost to the race. Hypotheses: request ids are fresh (each `addFlow`
id is pairwise distinct and absent from the initial pools), which holds of
real traces because each flow event carries a newly built request. -/
theorem C2_pool_swap_atomic (s₀ : DispatchState) (evs : List Event)
    (hfresh : ∀ r ∈ addIds evs, s₀.countReq r = 0)
    (hnodup : (addIds evs).Nodup) :
    (∀ (s : DispatchState) (e : Event) (r : Nat) (p : PoolId),
        (step s e).2 = some (r, p) →
        s.poolRef = some p ∧ ∃ q, findPool s.pools p = some q ∧ q.Closed = false) ∧
    ((run s₀ evs).2.map Prod.fst).Nodup ∧
    ∀ rp ∈ (run s₀ evs).2,
      (run s₀ evs).1.countReq rp.1 = 1 ∧
      ∃ q, findPool (run s₀ evs).1.pools rp.2 = some q ∧ rp.1 ∈ q.contents :=
  ⟨fun s e r p h => step_delivery s e r p h,
   (dispatch_run_sound evs s₀ hfresh hnodup).1,
   (dispatch_run_sound evs s₀ hfresh hnodup).2⟩

/-- Witness for C2 on a concrete interleaving: pool 0 active, a flow added,
the pool swapped to generation 1 and a flow added there, generation 0 closed
by its owner, one more flow added (to generation 1). -/
theorem C2_pool_swap_atomic_witness :
    ((run ⟨some 0, [(0, ⟨false, []⟩), (1, ⟨false, []⟩)]⟩
        [.addFlow 5, .replacePool 1, .addFlow 6, .closePool 0,
         .addFlow 7]).2.map Prod.fst).Nodup ∧
    ∀ rp ∈ (run ⟨some 0, [(0, ⟨false, []⟩), (1, ⟨false, []⟩)]⟩
        [.addFlow 5, .replacePool 1, .addFlow 6, .closePool 0, .addFlow 7]).2,
      (run ⟨some 0, [(0, ⟨false, []⟩), (1, ⟨false, []⟩)]⟩
        [.addFlow 5, .replacePool 1, .addFlow 6, .closePool 0,
         .addFlow 7]).1.countReq rp.1 = 1 ∧
      ∃ q, findPool (run ⟨some 0, [(0, ⟨false, []⟩), (1, ⟨false, []⟩)]⟩
        [.addFlow 5, .replacePool 1, .addFlow 6, .closePool 0,
         .addFlow 7]).1.pools rp.2 = some q ∧ rp.1 ∈ q.contents :=
  ⟨(C2_pool_swap_atomic ⟨some 0, [(0, ⟨false, []⟩), (1, ⟨false, []⟩)]⟩
      [.addFlow 5, .replacePool 1, .addFlow 6, .closePool 0, .addFlow 7]
      (by decide) (by decide)).2.1,
   (C2_pool_swap_atomic ⟨some 0, [(0, ⟨false, []⟩), (1, ⟨false, []⟩)]⟩
      [.addFlow 5, .replacePool 1, .addFlow 6, .closePool 0, .addFlow 7]
      (by decide) (by decide)).2.2⟩

end LigoloMP

namespace LigoloMP

/-- **C1**. Evidence against the claim (spec §9 records this as the open
defect of the original constructor): with `tun.Open` succeeding (descriptor
3) and `CreateNIC` failing, `NewStack` reports the error yet leaves the
descriptor open (`fdOpen = true`: no error path closes it) and returns a
live partially-initialized handle (`&ns` is never nil; its engine pointer
and descriptor fields are set). The echo-responder failure path leaks the
descriptor the same way. -/
theorem C1_construction_failure_leaks_descriptor :
    ((NewStack ⟨⟨7, 9, true, true, true, true⟩, .ok 3, some "nic failed", none⟩
        (some ⟨false, []⟩)).result.isOk = false ∧
     (NewStack ⟨⟨7, 9, true, true, true, true⟩, .ok 3, some "nic failed", none⟩
        (some ⟨false, []⟩)).fdOpen = true ∧
     (NewStack ⟨⟨7, 9, true, true, true, true⟩, .ok 3, some "nic failed", none⟩
        (some ⟨false, []⟩)).ns.fd = 3 ∧
     (NewStack ⟨⟨7, 9, true, true, true, true⟩, .ok 3, some "nic failed", none⟩
        (some ⟨false, []⟩)).ns.stack.isSome = true) ∧
    ((NewStack ⟨⟨7, 9, true, true, true, true⟩, .ok 3, none, some "responder failed"⟩
        (some ⟨false, []⟩)).result.isOk = false ∧
     (NewStack ⟨⟨7, 9, true, true, true, true⟩, .ok 3, none, some "responder failed"⟩
        (some ⟨false, []⟩)).fdOpen = true) := by
  decide

/-- **C5 counterexample**. The claim says the engine's resources are released
even on the error path where closing the descriptor fails. On that path the
code returns the error immediately after `unix.Close` and never calls
`stack.Destroy()`: the completed actions are only the stop signal and the
close, and the engine is still alive in the resulting state. -/
theorem C5_counterexample :
    Destroy false ⟨true, true, true⟩ =
      .errored "close failed" ⟨false, false, true⟩ [.signalStop, .closeFd] ∧
    TeardownAction.releaseEngine ∉
      [TeardownAction.signalStop, TeardownAction.closeFd] := by
  constructor
  · rfl
  · decide

/-- **C5 (amended)**. `Destroy` performs its teardown steps in order: the
EchoResponder's stop completes first, the descriptor close second, and the
engine release third — but the engine release happens only on the success
path; when closing the descriptor fails the error is returned at once and
the engine's resources are not released. -/
theorem C5_destroy_order (s : TeardownState) (closeOk : Bool)
    (h : s.responderRunning = true) :
    (closeOk = true →
      Destroy closeOk s =
        .ok { s with responderRunning := false, fdOpen := false, engineAlive := false }
          [.signalStop, .closeFd, .releaseEngine]) ∧
    (closeOk = false →
      Destroy closeOk s =
        .errored "close failed" { s with responderRunning := false, fdOpen := false }
          [.signalStop, .closeFd]) := by
  constructor <;> intro hc <;> subst hc <;> simp [Destroy, h]

/-- Witness for C5 from the fully-live state, for both close outcomes. -/
theorem C5_destroy_order_witness :
    Destroy true ⟨true, true, true⟩ =
      .ok ⟨false, false, false⟩ [.signalStop, .closeFd, .releaseEngine] ∧
    Destroy false ⟨true, true, true⟩ =
      .errored "close failed" ⟨false, false, true⟩ [.signalStop, .closeFd] :=
  ⟨(C5_destroy_order ⟨true, true, true⟩ true rfl).1 rfl,
   (C5_destroy_order ⟨true, true, true⟩ false rfl).2 rfl⟩

/-- **C6**. Evidence against the claim (spec §9: teardown "must be made
idempotent … rather than relying on a single-use completion signal that
would block or panic if signaled twice"): after a first successful `Destroy`
the responder is stopped, so a second `Destroy` blocks forever on the
single-use stop channel — it completes no action and never returns, rather
than being a guarded no-op. -/
theorem C6_second_destroy_blocks :
    Destroy true ⟨true, true, true⟩ =
      .ok ⟨false, false, false⟩ [.signalStop, .closeFd, .releaseEngine] ∧
    (∀ closeOk : Bool, Destroy closeOk ⟨false, false, false⟩ = .blocked []) := by
  constructor
  · rfl
  · decide

/-- **C7**. Every successful construction applies the fixed startup policy,
whatever the engine's initial defaults: accept-all IPv4 and IPv6 routes
bound to the single NIC 1, promiscuous mode and spoofing enabled on it,
forwarding disabled for both families, SACK disabled, SYN-cookies disabled,
ICMP limit and burst zero. -/
theorem C7_fixed_startup_policy (env : ConstructEnv) (pool : Option ConnPool)
    (h : (NewStack env pool).result.isOk = true) :
    (NewStack env pool).result = .ok fixedStartupPolicy ∧
    (NewStack env pool).ns.stack = some fixedStartupPolicy := by
  rcases env with ⟨d, tunOpen, nicErr, responderErr⟩
  rcases tunOpen with e | fd
  · exact Bool.noConfusion h
  · rcases nicErr with _ | e
    · rcases responderErr with _ | e
      · exact ⟨rfl, rfl⟩
      · exact Bool.noConfusion h
    · exact Bool.noConfusion h

/-- Witness for C7 at a concrete environment with non-trivial engine
defaults. -/
theorem C7_fixed_startup_policy_witness :
    (NewStack ⟨⟨7, 9, true, true, true, true⟩, .ok 3, none, none⟩
        (some ⟨false, []⟩)).result = .ok fixedStartupPolicy ∧
    (NewStack ⟨⟨7, 9, true, true, true, true⟩, .ok 3, none, none⟩
        (some ⟨false, []⟩)).ns.stack = some fixedStartupPolicy :=
  C7_fixed_startup_policy ⟨⟨7, 9, true, true, true, true⟩, .ok 3, none, none⟩
    (some ⟨false, []⟩) rfl

end LigoloMP
